import Mathlib

/-!
Verification development for the `my-kakeibo` household-budget application
(`src/app.py`).  The Python source is shallowly embedded: strings become
`List Char`, SQLite tables become lists of rows, `st.session_state` becomes an
explicit record, and every fallible step returns an `Option`.
-/

/-- The backtick character, written via its code point. -/
def btick : Char := '\x60'

/-- First fence token removed by `analyze_receipt`: the Python code runs
`text.replace("```json", "")`. -/
def fenceTokJson : List Char := "```json".data

/-- Second fence token removed by `analyze_receipt` (`text.replace("```", "")`). -/
def fenceTok : List Char := "```".data

/-- Tail of the first fence token after its leading backtick. -/
def fenceRestJson : List Char := "``json".data

/-- Tail of the second fence token after its leading backtick. -/
def fenceRest : List Char := "``".data

/-- If `os` is an initial segment of `s`, return the remainder of `s`. -/
def dropPre : List Char → List Char → Option (List Char)
  | [], s => some s
  | _ :: _, [] => none
  | o :: os, c :: cs => if o = c then dropPre os cs else none

/-- Python `str.replace(old, "")` for a token `o :: os`, fuel-indexed so that it
computes by kernel reduction.  Scans left to right; on a match it jumps past the
whole token (non-overlapping occurrences, exactly like Python), otherwise it
keeps one character and continues. -/
def removeAllF : Nat → Char → List Char → List Char → List Char
  | 0, _, _, s => s
  | _ + 1, _, _, [] => []
  | f + 1, o, os, c :: cs =>
    if c = o then
      match dropPre os cs with
      | some rest => removeAllF f o os rest
      | none => c :: removeAllF f o os cs
    else
      c :: removeAllF f o os cs

/-- Python `s.replace(o :: os, "")`: run the scanner with fuel `s.length`,
which is always sufficient because every step consumes at least one character. -/
def pyRemoveTok (o : Char) (os s : List Char) : List Char :=
  removeAllF s.length o os s

/-- Whitespace stripped by Python `str.strip()` (the ASCII fragment). -/
def isPySpace (c : Char) : Bool :=
  c = ' ' || c = '\t' || c = '\n' || c = '\r' || c = '\x0b' || c = '\x0c'

/-- Python `str.strip()`: drop leading and trailing whitespace. -/
def pyStrip (s : List Char) : List Char :=
  ((s.dropWhile isPySpace).reverse.dropWhile isPySpace).reverse

/-- JSON values, restricted to the fragment the receipt pipeline manipulates:
strings, integer numbers, and one-level objects. -/
inductive JValue where
  | jstr : List Char → JValue
  | jnum : Int → JValue
  | jobj : List (List Char × JValue) → JValue

/-- Whitespace accepted between JSON tokens. -/
def isJsonWs (c : Char) : Bool :=
  c = ' ' || c = '\t' || c = '\n' || c = '\r'

/-- Skip JSON whitespace. -/
def skipWs (s : List Char) : List Char := s.dropWhile isJsonWs

/-- Scan the body of a JSON string literal (opening quote already consumed);
returns the contents and the remainder after the closing quote. -/
def scanStr : List Char → Option (List Char × List Char)
  | [] => none
  | c :: cs =>
    if c = '"' then some ([], cs)
    else (scanStr cs).map (fun p => (c :: p.1, p.2))

/-- Numeric value of a list of decimal digits. -/
def natOfDigits (ds : List Char) : Nat :=
  ds.foldl (fun a c => a * 10 + (c.toNat - '0'.toNat)) 0

/-- Scan an unsigned JSON integer (no leading zeros, per the JSON grammar). -/
def scanNat (s : List Char) : Option (Nat × List Char) :=
  let ds := s.takeWhile (fun c => c.isDigit)
  if ds = [] then none
  else if 1 < ds.length ∧ ds.head? = some '0' then none
  else some (natOfDigits ds, s.dropWhile (fun c => c.isDigit))

/-- Parse a scalar JSON value: a string literal or a (possibly negative)
integer. -/
def parseScalar : List Char → Option (JValue × List Char)
  | '"' :: cs => (scanStr cs).map (fun p => (JValue.jstr p.1, p.2))
  | '-' :: cs => (scanNat cs).map (fun p => (JValue.jnum (-(p.1 : Int)), p.2))
  | s => (scanNat s).map (fun p => (JValue.jnum ((p.1 : Int)), p.2))

/-- Parse the members of a JSON object after the opening brace (first key is
next, whitespace already skipped).  Fuel-indexed; each member consumes at least
one character, so fuel `length + 1` suffices. -/
def parseMembers : Nat → List Char → Option (List (List Char × JValue) × List Char)
  | 0, _ => none
  | f + 1, s =>
    match s with
    | '"' :: cs =>
      match scanStr cs with
      | none => none
      | some (key, r1) =>
        match skipWs r1 with
        | ':' :: r2 =>
          match parseScalar (skipWs r2) with
          | none => none
          | some (v, r3) =>
            match skipWs r3 with
            | ',' :: r4 =>
              match parseMembers f (skipWs r4) with
              | some (ms, r5) => some ((key, v) :: ms, r5)
              | none => none
            | '\x7d' :: r4 => some ([(key, v)], r4)
            | _ => none
        | _ => none
    | _ => none

/-- Parse one JSON value at the head of the input: an object or a scalar. -/
def parseTop (s : List Char) : Option (JValue × List Char) :=
  match s with
  | '\x7b' :: cs =>
    match skipWs cs with
    | '\x7d' :: r => some (JValue.jobj [], r)
    | cs' => (parseMembers (cs'.length + 1) cs').map (fun p => (JValue.jobj p.1, p.2))
  | s' => parseScalar s'

/-- Model of Python `json.loads` on the fragment above: the whole input, up to
surrounding whitespace, must be a single JSON value, otherwise the call raises
(modelled as `none`). -/
def jsonLoads (s : List Char) : Option JValue :=
  match parseTop (skipWs s) with
  | some (v, rest) => if skipWs rest = [] then some v else none
  | none => none

/-- Text processing of `analyze_receipt` (src/app.py lines 134-138):
`text = response.text.replace("```json", "").replace("```", "").strip()`
followed by `json.loads(text)`; any exception is caught and `None` is
returned. -/
def analyze_receipt_text (t : List Char) : Option JValue :=
  jsonLoads (pyStrip (pyRemoveTok btick fenceRest (pyRemoveTok btick fenceRestJson t)))

/-- Calendar dates as stored by `datetime.date`. -/
structure Date where
  year : Nat
  month : Nat
  day : Nat
deriving DecidableEq

/-- Gregorian leap-year test, as used by `datetime`. -/
def isLeap (y : Nat) : Bool :=
  (y % 4 = 0 && y % 100 ≠ 0) || y % 400 = 0

/-- Number of days in a month, as validated by `datetime.date`. -/
def daysInMonth (y m : Nat) : Nat :=
  if m = 2 then (if isLeap y then 29 else 28)
  else if m = 4 ∨ m = 6 ∨ m = 9 ∨ m = 11 then 30
  else 31

/-- Model of `datetime.datetime.strptime(s, "%Y-%m-%d").date()`: exactly four
year digits, one or two month digits (1..12), one or two day digits valid for
the month, nothing else in the string, and year at least 1
(`datetime.MINYEAR`).  Any mismatch raises, modelled as `none`. -/
def parseIsoDate (s : List Char) : Option Date :=
  match s with
  | y1 :: y2 :: y3 :: y4 :: '-' :: rest =>
    if y1.isDigit && y2.isDigit && y3.isDigit && y4.isDigit then
      let y := natOfDigits [y1, y2, y3, y4]
      let mds := rest.takeWhile (fun c => c.isDigit)
      let r2 := rest.dropWhile (fun c => c.isDigit)
      if mds.length = 1 ∨ mds.length = 2 then
        let m := natOfDigits mds
        if 1 ≤ m ∧ m ≤ 12 then
          match r2 with
          | '-' :: rest2 =>
            let dds := rest2.takeWhile (fun c => c.isDigit)
            let r3 := rest2.dropWhile (fun c => c.isDigit)
            if (dds.length = 1 ∨ dds.length = 2) ∧ r3 = [] then
              let d := natOfDigits dds
              if 1 ≤ d ∧ d ≤ daysInMonth y m ∧ 1 ≤ y then some ⟨y, m, d⟩ else none
            else none
          | _ => none
        else none
      else none
    else none
  | _ => none

/-- Well-formedness of a calendar date (what `datetime.date` guarantees). -/
def isValidDate (dt : Date) : Prop :=
  1 ≤ dt.year ∧ 1 ≤ dt.month ∧ dt.month ≤ 12 ∧ 1 ≤ dt.day ∧ dt.day ≤ daysInMonth dt.year dt.month

instance (dt : Date) : Decidable (isValidDate dt) := by
  unfold isValidDate; infer_instance

/-- The fixed category taxonomy `CATEGORIES` (src/app.py lines 114-118). -/
def CATEGORIES : List (List Char) :=
  ["食費".data, "外食費".data, "日用品".data, "交通費".data, "家賃".data,
   "通信費(Wi-Fi)".data, "通信費(携帯)".data, "ナッシュ".data, "Netflix".data,
   "Google One".data, "電気".data, "ガス".data, "水道".data, "電話代".data,
   "娯楽・趣味".data, "美容・衣類".data, "交際費".data, "医療費".data,
   "特別費".data, "その他".data]

/-- The fallback category "その他" (Other). -/
def fallbackCategory : List Char := "その他".data

/-- Key `"date"` of the extractor reply. -/
def keyDate : List Char := "date".data

/-- Key `"amount"` of the extractor reply. -/
def keyAmount : List Char := "amount".data

/-- Key `"item"` of the extractor reply. -/
def keyItem : List Char := "item".data

/-- Key `"category"` of the extractor reply. -/
def keyCat : List Char := "category".data

/-- Python subscription `data[k]` / `data.get(k)` on a parsed JSON value:
defined only on objects (on anything else Python raises, modelled as `none`;
in the staging handler every such exception is caught). -/
def getItem (v : JValue) (k : List Char) : Option JValue :=
  match v with
  | JValue.jobj ms => (ms.find? (fun m => decide (m.1 = k))).map (fun m => m.2)
  | _ => none

/-- Python `int(s)` on a string: optional surrounding whitespace, optional
sign, then decimal digits (plain-decimal fragment; leading zeros allowed). -/
def pyIntOfStr (s : List Char) : Option Int :=
  match pyStrip s with
  | '-' :: ds =>
    if ds ≠ [] ∧ ds.all (fun c => c.isDigit) then some (-(natOfDigits ds : Int)) else none
  | '+' :: ds =>
    if ds ≠ [] ∧ ds.all (fun c => c.isDigit) then some ((natOfDigits ds : Int)) else none
  | ds =>
    if ds ≠ [] ∧ ds.all (fun c => c.isDigit) then some ((natOfDigits ds : Int)) else none

/-- Python `int(v)` on a JSON value: integers pass through, numeric strings
are parsed, anything else raises (`none`). -/
def pyInt (v : JValue) : Option Int :=
  match v with
  | JValue.jnum n => some n
  | JValue.jstr s => pyIntOfStr s
  | JValue.jobj _ => none

/-- The draft fields kept in `st.session_state` (src/app.py lines 202-205):
`input_date`, `input_amount`, `input_item`, `input_category`.  `input_item`
holds whatever value Python assigned, hence a `JValue`. -/
structure SessionState where
  input_date : Date
  input_amount : Int
  input_item : JValue
  input_category : List Char

/-- Initial session defaults (src/app.py lines 202-205). -/
def initState (today : Date) : SessionState :=
  ⟨today, 0, JValue.jstr [], "食費".data⟩

/-- The date computed by the inner try of the staging handler (src/app.py
lines 179-183): parse `data["date"]` as `%Y-%m-%d`; on any exception
(missing key, non-string, parse failure) fall back to today. -/
def draftDate (today : Date) (data : JValue) : Date :=
  match getItem data keyDate with
  | some (JValue.jstr ds) =>
    match parseIsoDate ds with
    | some d => d
    | none => today
  | _ => today

/-- The category computed by the staging handler (src/app.py lines 188-189):
`data.get("category", "その他")`, coerced to "その他" unless it is a string
belonging to `CATEGORIES`. -/
def draftCat (data : JValue) : List Char :=
  match getItem data keyCat with
  | some (JValue.jstr c) => if c ∈ CATEGORIES then c else fallbackCategory
  | _ => fallbackCategory

/-- The AI draft-staging handler (src/app.py lines 178-195).  Mirrors Python's
statement order and exception flow: `input_date` is assigned first (the date
fallback never raises); then `int(data["amount"])` and `data["item"]` may
raise, reaching the outer `except` with the earlier assignments already
performed; the category coercion never raises.  Returns the resulting session
state and whether the handler reached `st.success` (`true`) or the outer
`except` (`false`). -/
def stageDraft (today : Date) (data : JValue) (s : SessionState) : SessionState × Bool :=
  match getItem data keyAmount with
  | none => (⟨draftDate today data, s.input_amount, s.input_item, s.input_category⟩, false)
  | some av =>
    match pyInt av with
    | none => (⟨draftDate today data, s.input_amount, s.input_item, s.input_category⟩, false)
    | some n =>
      match getItem data keyItem with
      | none => (⟨draftDate today data, n, s.input_item, s.input_category⟩, false)
      | some iv => (⟨draftDate today data, n, iv, draftCat data⟩, true)

/-- A row of the `expenses` table (src/app.py lines 54-62). -/
structure ExpenseRow where
  id : Nat
  date : Date
  category : List Char
  item : List Char
  amount : Int
deriving DecidableEq

/-- Period token of a date: `strftime("%Y年%m月")` identifies exactly the
(year, month) pair (src/app.py line 149). -/
def monthTok (d : Date) : Nat × Nat := (d.year, d.month)

/-- `df_month`: the records whose period token matches the selected month
(src/app.py line 228). -/
def monthRows (rows : List ExpenseRow) (t : Nat × Nat) : List ExpenseRow :=
  rows.filter (fun r => decide (monthTok r.date = t))

/-- Sum of the amounts of the records in a given category. -/
def catSum (rs : List ExpenseRow) (c : List Char) : Int :=
  ((rs.filter (fun r => decide (r.category = c))).map (fun r => r.amount)).sum

/-- The distinct categories occurring in a record list (the groupby keys). -/
def actualCats (rs : List ExpenseRow) : List (List Char) :=
  (rs.map (fun r => r.category)).dedup

/-- `actual_sums`: `df_month.groupby("category")["amount"].sum().to_dict()`
(src/app.py line 232) as an association list keyed by the distinct
categories. -/
def actualSums (rs : List ExpenseRow) : List (List Char × Int) :=
  (actualCats rs).map (fun c => (c, catSum rs c))

/-- Python `dict.get(k, 0)` on an association list. -/
def lookupD (l : List (List Char × Int)) (k : List Char) : Int :=
  match l.find? (fun p => decide (p.1 = k)) with
  | some p => p.2
  | none => 0

/-- `total_budget = sum(budget_dict.values())` (src/app.py line 235). -/
def totalBudget (bd : List (List Char × Int)) : Int :=
  (bd.map (fun p => p.2)).sum

/-- `total_actual = sum(actual_sums.values())` (src/app.py line 236). -/
def totalActual (rows : List ExpenseRow) (t : Nat × Nat) : Int :=
  ((actualSums (monthRows rows t)).map (fun p => p.2)).sum

/-- `total_diff = total_budget - total_actual` (src/app.py line 237). -/
def totalDiff (bd : List (List Char × Int)) (rows : List ExpenseRow) (t : Nat × Nat) : Int :=
  totalBudget bd - totalActual rows t

/-- The consumption bar (src/app.py lines 248-251): computed only under the
guard `total_budget > 0`, as `min(total_actual / total_budget, 1.0)`; modelled
with exact rationals, `none` when the guard fails. -/
def percentVal (bd : List (List Char × Int)) (rows : List ExpenseRow) (t : Nat × Nat) :
    Option ℚ :=
  if 0 < totalBudget bd then
    some (min ((totalActual rows t : ℚ) / (totalBudget bd : ℚ)) 1)
  else none

/-- A row of the per-category Details report (src/app.py line 288). -/
structure DetailRow where
  category : List Char
  budget : Int
  actual : Int
  diff : Int
deriving DecidableEq

/-- The Details report (src/app.py lines 281-288): produced only when
`df_month` is nonempty; iterates the taxonomy and skips categories whose
budget and actual are both zero. -/
def detailRows (bd : List (List Char × Int)) (rows : List ExpenseRow) (t : Nat × Nat) :
    List DetailRow :=
  if monthRows rows t = [] then []
  else
    CATEGORIES.filterMap (fun c =>
      if lookupD bd c = 0 ∧ lookupD (actualSums (monthRows rows t)) c = 0 then none
      else some ⟨c, lookupD bd c, lookupD (actualSums (monthRows rows t)) c,
        lookupD bd c - lookupD (actualSums (monthRows rows t)) c⟩)

/-- The editable budget-configuration table (src/app.py lines 255-263): one
row per taxonomy category, with its budget and actual. -/
def budgetConfigRows (bd : List (List Char × Int)) (rows : List ExpenseRow) (t : Nat × Nat) :
    List (List Char × Int × Int) :=
  CATEGORIES.map (fun c => (c, lookupD bd c, lookupD (actualSums (monthRows rows t)) c))

/-- A row of the `monthly_budgets` table (src/app.py lines 63-70), primary
key (month, category). -/
structure BudgetEntry where
  month : List Char
  category : List Char
  amount : Int
deriving DecidableEq

/-- Does an entry carry the given (month, category) primary key? -/
def budgetKeyMatch (m c : List Char) (e : BudgetEntry) : Bool :=
  decide (e.month = m ∧ e.category = c)

/-- `set_category_budget` (src/app.py lines 95-101): SQLite
`INSERT OR REPLACE` on primary key (month, category) deletes any conflicting
row and inserts the new one. -/
def set_category_budget (db : List BudgetEntry) (m c : List Char) (a : Int) :
    List BudgetEntry :=
  db.filter (fun e => !(budgetKeyMatch m c e)) ++ [⟨m, c, a⟩]

/-- The schema invariant: at most one row per (month, category) pair. -/
def budgetInv (db : List BudgetEntry) : Prop :=
  ∀ m c, (db.filter (budgetKeyMatch m c)).length ≤ 1

/-- `delete_expense` (src/app.py lines 88-93): `DELETE FROM expenses WHERE
id = ?` removes every row with the given id. -/
def delete_expense (db : List ExpenseRow) (eid : Nat) : List ExpenseRow :=
  db.filter (fun r => !(decide (r.id = eid)))

/-! Helper lemmas about the fence-token scanner. -/

/-- A token is always an initial segment of itself followed by anything. -/
lemma dropPre_self (l t : List Char) : dropPre l (l ++ t) = some t := by
  induction l with
  | nil => rfl
  | cons o os ih => simp [dropPre, ih]

/-- Dropping a matched token never lengthens the input. -/
lemma dropPre_length (os : List Char) :
    ∀ cs rest, dropPre os cs = some rest → rest.length ≤ cs.length := by
  induction os with
  | nil =>
    intro cs rest h
    simp only [dropPre, Option.some.injEq] at h
    subst h
    exact Nat.le_refl _
  | cons o os ih =>
    intro cs rest h
    cases cs with
    | nil => simp [dropPre] at h
    | cons c cs' =>
      simp only [dropPre] at h
      by_cases hoc : o = c
      · rw [if_pos hoc] at h
        exact Nat.le_trans (ih cs' rest h) (Nat.le_succ _)
      · rw [if_neg hoc] at h
        cases h

/-- The scanner's result does not depend on the fuel once the fuel covers the
input length. -/
lemma removeAllF_of_le (o : Char) (os : List Char) :
    ∀ f₁ f₂ s, s.length ≤ f₁ → s.length ≤ f₂ →
      removeAllF f₁ o os s = removeAllF f₂ o os s := by
  intro f₁
  induction f₁ with
  | zero =>
    intro f₂ s h1 _
    have hs : s = [] := List.eq_nil_of_length_eq_zero (Nat.le_zero.mp h1)
    subst hs
    cases f₂ <;> rfl
  | succ f ih =>
    intro f₂ s h1 h2
    cases s with
    | nil => cases f₂ <;> rfl
    | cons c cs =>
      cases f₂ with
      | zero => simp at h2
      | succ g =>
        simp only [removeAllF]
        have hcs1 : cs.length ≤ f := by simp at h1; omega
        have hcs2 : cs.length ≤ g := by simp at h2; omega
        by_cases hco : c = o
        · rw [if_pos hco, if_pos hco]
          cases hdp : dropPre os cs with
          | none => exact congrArg (c :: ·) (ih g cs hcs1 hcs2)
          | some rest =>
            have hr := dropPre_length os cs rest hdp
            exact ih g rest (Nat.le_trans hr hcs1) (Nat.le_trans hr hcs2)
        · rw [if_neg hco, if_neg hco]
          exact congrArg (c :: ·) (ih g cs hcs1 hcs2)

/-- The scanner passes over a region that cannot start a token occurrence. -/
lemma removeAllF_append_left (o : Char) (os : List Char) :
    ∀ (s t : List Char), (∀ c ∈ s, c ≠ o) →
      removeAllF (s.length + t.length) o os (s ++ t) = s ++ removeAllF t.length o os t := by
  intro s
  induction s with
  | nil => intro t _; simp
  | cons c cs ih =>
    intro t h
    have hco : c ≠ o := h c (by simp)
    have hl : (c :: cs).length + t.length = (cs.length + t.length) + 1 := by
      simp [List.length_cons]; omega
    rw [hl, List.cons_append]
    simp only [removeAllF, if_neg hco]
    rw [ih t (fun x hx => h x (by simp [hx]))]
    rfl

/-- One scanner step on an input that starts with the whole token. -/
lemma removeAllF_head_match (f : Nat) (o : Char) (os t : List Char) :
    removeAllF (f + 1) o os (o :: (os ++ t)) = removeAllF f o os t := by
  simp only [removeAllF]
  rw [if_pos trivial, dropPre_self]

/-- Removing the "```json" token from a fenced reply leaves the body and the
closing fence. -/
lemma pyRemoveTok_fenceJson (j : List Char) (hb : ∀ c ∈ j, c ≠ btick) :
    pyRemoveTok btick fenceRestJson (fenceTokJson ++ j ++ fenceTok) = j ++ fenceTok := by
  have hshape : fenceTokJson ++ j ++ fenceTok = btick :: (fenceRestJson ++ (j ++ fenceTok)) := by
    show (btick :: fenceRestJson) ++ j ++ fenceTok = _
    simp [List.cons_append, List.append_assoc]
  unfold pyRemoveTok
  rw [hshape, List.length_cons, removeAllF_head_match]
  rw [removeAllF_of_le btick fenceRestJson ((fenceRestJson ++ (j ++ fenceTok)).length)
    ((j ++ fenceTok).length) (j ++ fenceTok) (by simp) (Nat.le_refl _)]
  rw [List.length_append, removeAllF_append_left btick fenceRestJson j fenceTok hb]
  have h3 : removeAllF fenceTok.length btick fenceRestJson fenceTok = fenceTok := rfl
  rw [h3]

/-- Removing the "```" token then deletes the closing fence. -/
lemma pyRemoveTok_fence (j : List Char) (hb : ∀ c ∈ j, c ≠ btick) :
    pyRemoveTok btick fenceRest (j ++ fenceTok) = j := by
  unfold pyRemoveTok
  rw [List.length_append, removeAllF_append_left btick fenceRest j fenceTok hb]
  have h3 : removeAllF fenceTok.length btick fenceRest fenceTok = [] := rfl
  rw [h3, List.append_nil]

/-! Claim C1: tolerant JSON extraction from the model reply. -/

/-- Modelled from the spec: the extraction behaviour the specification
describes for `analyze_receipt` — "locate the first `\x7b...\x7d`
balanced/greedy span via pattern search (not a full parser)", read as the
greedy regex span from the first opening brace to the last closing brace.
No such pattern search exists in src/app.py; this definition exists only to
compare the spec's description against the code's fence-stripping
behaviour. -/
def firstBraceSpanGreedy (s : List Char) : Option (List Char) :=
  match s.dropWhile (fun c => !(decide (c = '\x7b'))) with
  | [] => none
  | c :: rest =>
    match rest.reverse.dropWhile (fun c => !(decide (c = '\x7d'))) with
    | [] => none
    | tail => some (c :: tail.reverse)

/-- A model reply wrapping the JSON object in surrounding prose. -/
def proseReply : List Char :=
  "レシートを解析しました。 \x7b\"date\": \"2024-03-01\", \"amount\": 500, \"item\": \"coffee\", \"category\": \"食費\"\x7d 以上です。".data

/-- The first balanced brace span inside `proseReply`. -/
def proseSpan : List Char :=
  "\x7b\"date\": \"2024-03-01\", \"amount\": 500, \"item\": \"coffee\", \"category\": \"食費\"\x7d".data

/-- The JSON object contained in `proseReply`. -/
def proseObj : JValue :=
  JValue.jobj [(keyDate, JValue.jstr "2024-03-01".data), (keyAmount, JValue.jnum 500),
    (keyItem, JValue.jstr "coffee".data), (keyCat, JValue.jstr "食費".data)]

/-- C1 counterexample: `proseReply` contains a balanced, parseable
`\x7b...\x7d` span, so the claimed pattern search would return `proseObj`;
but `analyze_receipt` only strips fence tokens and whitespace and then parses
the whole remaining text, which fails on the surrounding prose, so the code
reports extraction failure. -/
theorem analyze_receipt_prose_counter :
    firstBraceSpanGreedy proseReply = some proseSpan ∧
    jsonLoads proseSpan = some proseObj ∧
    analyze_receipt_text proseReply = none :=
  ⟨rfl, rfl, rfl⟩

/-- C1 (amended): `analyze_receipt` deletes the fence tokens "```json" and
"```" from the reply, strips surrounding whitespace, and parses the whole
remaining text as JSON.  A reply that is exactly a fenced JSON document is
parsed to its object; JSON merely embedded in other prose is not located (see
the counterexample). -/
theorem analyze_receipt_fenced (j : List Char) (v : JValue)
    (hb : ∀ c ∈ j, c ≠ btick) (hs : pyStrip j = j) (hj : jsonLoads j = some v) :
    analyze_receipt_text (fenceTokJson ++ j ++ fenceTok) = some v := by
  unfold analyze_receipt_text
  rw [pyRemoveTok_fenceJson j hb, pyRemoveTok_fence j hb, hs, hj]

/-- Witness for C1's amended theorem at the concrete fenced reply. -/
theorem analyze_receipt_fenced_witness :
    analyze_receipt_text (fenceTokJson ++ proseSpan ++ fenceTok) = some proseObj :=
  analyze_receipt_fenced proseSpan proseObj (by decide) rfl rfl

/-! Helper lemmas about the draft-staging handler. -/

/-- Any date produced by the strptime model is a well-formed calendar date. -/
lemma parseIsoDate_valid (s : List Char) (dt : Date) (h : parseIsoDate s = some dt) :
    isValidDate dt := by
  simp only [parseIsoDate] at h
  split at h
  case _ y1 y2 y3 y4 rest =>
    split at h
    case isFalse => cases h
    case isTrue =>
      split at h
      case isFalse => cases h
      case isTrue =>
        split at h
        case isFalse => cases h
        case isTrue hm =>
          split at h
          case _ rest2 =>
            split at h
            case isFalse => cases h
            case isTrue =>
              split at h
              case isFalse => cases h
              case isTrue hd =>
                cases h
                exact ⟨hd.2.2, hm.1, hm.2, hd.1, hd.2.1⟩
          case _ => cases h
  case _ => cases h

/-- The staged date is always a well-formed calendar date, provided today's
date is. -/
lemma draftDate_valid (today : Date) (data : JValue) (h : isValidDate today) :
    isValidDate (draftDate today data) := by
  unfold draftDate
  split
  · split
    · exact parseIsoDate_valid _ _ (by assumption)
    · exact h
  · exact h

/-- The staged category always belongs to the taxonomy. -/
lemma draftCat_mem (data : JValue) : draftCat data ∈ CATEGORIES := by
  unfold draftCat
  split
  · split
    · assumption
    · decide
  · decide

/-! Claim C2: what a failed staging attempt does to the draft state. -/

/-- A fixed current date for the concrete staging scenarios. -/
def today0 : Date := ⟨2024, 5, 1⟩

/-- The session state before the staging attempt. -/
def s0 : SessionState := initState today0

/-- An extractor reply that is missing the required `amount` key. -/
def dataNoAmount : JValue := JValue.jobj [(keyDate, JValue.jstr "2024-03-01".data)]

/-- C2 counterexample: on the reply missing `amount` the staging attempt
fails, yet the draft is not left as it was — `input_date` has already been
overwritten (Python assigns `st.session_state["input_date"]` before
`int(data["amount"])` raises). -/
theorem stage_failure_mutates_date :
    (stageDraft today0 dataNoAmount s0).2 = false ∧
    (stageDraft today0 dataNoAmount s0).1.input_date ≠ s0.input_date :=
  ⟨rfl, by decide⟩

/-- C2 (amended): every processing failure collapses to the single
extraction-failed outcome and `input_item` and `input_category` are left
unchanged, but `input_date` has already been overwritten with the normalized
reply date (and `input_amount` is also overwritten when the failure happens
at the `item` step). -/
theorem stage_failure_partial_fields (today : Date) (data : JValue) (s : SessionState)
    (h : (stageDraft today data s).2 = false) :
    (stageDraft today data s).1.input_item = s.input_item ∧
    (stageDraft today data s).1.input_category = s.input_category ∧
    (stageDraft today data s).1.input_date = draftDate today data := by
  unfold stageDraft at h ⊢
  cases ha : getItem data keyAmount with
  | none => simp [ha]
  | some av =>
    cases hn : pyInt av with
    | none => simp [ha, hn]
    | some n =>
      cases hi : getItem data keyItem with
      | none => simp [ha, hn, hi]
      | some iv => simp [ha, hn, hi] at h

/-- Witness for C2's amended theorem at the concrete failing reply. -/
theorem stage_failure_partial_fields_witness :
    (stageDraft today0 dataNoAmount s0).1.input_item = s0.input_item ∧
    (stageDraft today0 dataNoAmount s0).1.input_category = s0.input_category ∧
    (stageDraft today0 dataNoAmount s0).1.input_date = draftDate today0 dataNoAmount :=
  stage_failure_partial_fields today0 dataNoAmount s0 rfl

/-! Claim C3: what a successful staging attempt guarantees. -/

/-- An extractor reply with a negative `amount` that still stages
successfully. -/
def dataNegAmount : JValue :=
  JValue.jobj [(keyDate, JValue.jstr "2024-03-01".data), (keyAmount, JValue.jnum (-5)),
    (keyItem, JValue.jstr "x".data)]

/-- C3 counterexample: a reply with `amount = -5` stages successfully
(`st.success` is reached) and the resulting draft's amount is negative — the
handler never checks the sign of `int(data["amount"])`. -/
theorem stage_success_negative_amount :
    (stageDraft today0 dataNegAmount s0).2 = true ∧
    (stageDraft today0 dataNegAmount s0).1.input_amount < 0 :=
  ⟨rfl, by decide⟩

/-- C3 (amended): every successfully staged draft has a category inside the
taxonomy and a well-formed calendar date (provided today's date is
well-formed), and its amount is an integer — but that integer may be
negative (see the counterexample); non-negativity is not guaranteed. -/
theorem stage_success_valid_fields (today : Date) (data : JValue) (s : SessionState)
    (htoday : isValidDate today) (h : (stageDraft today data s).2 = true) :
    (stageDraft today data s).1.input_category ∈ CATEGORIES ∧
    isValidDate (stageDraft today data s).1.input_date := by
  unfold stageDraft at h ⊢
  cases ha : getItem data keyAmount with
  | none => simp [ha] at h
  | some av =>
    cases hn : pyInt av with
    | none => simp [ha, hn] at h
    | some n =>
      cases hi : getItem data keyItem with
      | none => simp [ha, hn, hi] at h
      | some iv =>
        simp only [ha, hn, hi]
        exact ⟨draftCat_mem data, draftDate_valid today data htoday⟩

/-- Witness for C3's amended theorem at the concrete successful reply. -/
theorem stage_success_valid_fields_witness :
    (stageDraft today0 dataNegAmount s0).1.input_category ∈ CATEGORIES ∧
    isValidDate (stageDraft today0 dataNegAmount s0).1.input_date :=
  stage_success_valid_fields today0 dataNegAmount s0 (by decide) rfl

/-! Claim C4: the date-fallback policy. -/

/-- C4: if the reply carries a `date` string and the rest of the processing
succeeds, a date that fails ISO parsing is silently replaced by today's date
and the staging still succeeds, while a date that parses is kept. -/
theorem stage_date_fallback (today : Date) (data : JValue) (s : SessionState)
    (ds : List Char) (av iv : JValue) (n : Int)
    (hd : getItem data keyDate = some (JValue.jstr ds))
    (ha : getItem data keyAmount = some av) (hn : pyInt av = some n)
    (hi : getItem data keyItem = some iv) :
    (stageDraft today data s).2 = true ∧
    (parseIsoDate ds = none → (stageDraft today data s).1.input_date = today) ∧
    (∀ dt, parseIsoDate ds = some dt → (stageDraft today data s).1.input_date = dt) := by
  unfold stageDraft
  simp only [ha, hn, hi]
  refine ⟨by trivial, ?_, ?_⟩
  · intro hpd
    unfold draftDate
    simp [hd, hpd]
  · intro dt hpd
    unfold draftDate
    simp [hd, hpd]

/-- An extractor reply whose date field is unparseable. -/
def dataYest : JValue :=
  JValue.jobj [(keyDate, JValue.jstr "yesterday".data), (keyAmount, JValue.jnum 500),
    (keyItem, JValue.jstr "coffee".data)]

/-- Witness for C4 at the concrete reply with date "yesterday". -/
theorem stage_date_fallback_witness :
    (stageDraft today0 dataYest s0).2 = true ∧
    (stageDraft today0 dataYest s0).1.input_date = today0 := by
  have h := stage_date_fallback today0 dataYest s0 "yesterday".data (JValue.jnum 500)
    (JValue.jstr "coffee".data) 500 rfl rfl rfl rfl
  exact ⟨h.1, h.2.1 rfl⟩

/-! Claim C5: the category-fallback policy. -/

/-- C5: when the rest of the processing succeeds, a missing or out-of-taxonomy
category is replaced by the fallback category while date, amount and item are
staged unchanged; an in-taxonomy category is kept. -/
theorem stage_category_fallback (today : Date) (data : JValue) (s : SessionState)
    (av iv : JValue) (n : Int)
    (ha : getItem data keyAmount = some av) (hn : pyInt av = some n)
    (hi : getItem data keyItem = some iv) :
    (stageDraft today data s).2 = true ∧
    (stageDraft today data s).1.input_amount = n ∧
    (stageDraft today data s).1.input_item = iv ∧
    (stageDraft today data s).1.input_date = draftDate today data ∧
    (getItem data keyCat = none → (stageDraft today data s).1.input_category = fallbackCategory) ∧
    (∀ c, getItem data keyCat = some (JValue.jstr c) →
      ((c ∈ CATEGORIES → (stageDraft today data s).1.input_category = c) ∧
       (c ∉ CATEGORIES → (stageDraft today data s).1.input_category = fallbackCategory))) := by
  unfold stageDraft
  simp only [ha, hn, hi]
  refine ⟨by trivial, by trivial, by trivial, by trivial, ?_, ?_⟩
  · intro hc
    unfold draftCat
    simp [hc]
  · intro c hc
    constructor
    · intro hmem
      unfold draftCat
      simp [hc, hmem]
    · intro hmem
      unfold draftCat
      simp [hc, hmem]

/-- An extractor reply carrying a category outside the taxonomy. -/
def dataGroc : JValue :=
  JValue.jobj [(keyDate, JValue.jstr "2024-03-01".data), (keyAmount, JValue.jnum 500),
    (keyItem, JValue.jstr "coffee".data), (keyCat, JValue.jstr "Groceries".data)]

/-- Witness for C5 at the concrete reply with category "Groceries". -/
theorem stage_category_fallback_witness :
    (stageDraft today0 dataGroc s0).2 = true ∧
    (stageDraft today0 dataGroc s0).1.input_amount = 500 ∧
    (stageDraft today0 dataGroc s0).1.input_category = fallbackCategory := by
  have h := stage_category_fallback today0 dataGroc s0 (JValue.jnum 500)
    (JValue.jstr "coffee".data) 500 rfl rfl rfl
  exact ⟨h.1, h.2.1, (h.2.2.2.2.2 "Groceries".data rfl).2 (by decide)⟩

/-! Helper lemmas about the aggregator. -/

/-- Splitting a sum of amounts along a Boolean predicate. -/
lemma sum_map_filter_split (p : ExpenseRow → Bool) (l : List ExpenseRow) :
    ((l.filter p).map (fun r => r.amount)).sum
      + ((l.filter (fun r => !(p r))).map (fun r => r.amount)).sum
      = (l.map (fun r => r.amount)).sum := by
  induction l with
  | nil => simp
  | cons a l ih => cases hpa : p a <;> simp [List.filter_cons, hpa] <;> omega

/-- Summing the per-category group sums over a duplicate-free cover of the
occurring categories gives the total of all amounts. -/
lemma sum_catSum_eq (ks : List (List Char)) :
    ∀ rs : List ExpenseRow, ks.Nodup → (∀ r ∈ rs, r.category ∈ ks) →
      (ks.map (fun k => catSum rs k)).sum = (rs.map (fun r => r.amount)).sum := by
  induction ks with
  | nil =>
    intro rs _ hcov
    have hrs : rs = [] := by
      cases rs with
      | nil => rfl
      | cons a l => exact absurd (hcov a (by simp)) (by simp)
    subst hrs
    simp
  | cons k ks ih =>
    intro rs hnd hcov
    have hknotin : k ∉ ks := (List.nodup_cons.mp hnd).1
    have hndks : ks.Nodup := (List.nodup_cons.mp hnd).2
    have hcov' : ∀ r ∈ rs.filter (fun r => !(decide (r.category = k))), r.category ∈ ks := by
      intro r hr
      have hrmem : r ∈ rs := (List.mem_filter.mp hr).1
      have hne : ¬(r.category = k) := by
        have h2 := (List.mem_filter.mp hr).2
        simpa using h2
      have h3 := hcov r hrmem
      simp only [List.mem_cons] at h3
      tauto
    have hmapeq : ks.map (fun k' => catSum rs k')
        = ks.map (fun k' => catSum (rs.filter (fun r => !(decide (r.category = k)))) k') := by
      apply List.map_congr_left
      intro k' hk'
      have hfe : (rs.filter (fun r => !(decide (r.category = k)))).filter
            (fun r => decide (r.category = k'))
          = rs.filter (fun r => decide (r.category = k')) := by
        rw [List.filter_filter]
        apply List.filter_congr
        intro r _
        by_cases hc : r.category = k'
        · have hkk : ¬(k' = k) := fun h => hknotin (h ▸ hk')
          have hck : ¬(r.category = k) := by
            rw [hc]
            exact hkk
          simp [hc, hck, hkk]
        · simp [hc]
      simp only [catSum, hfe]
    rw [List.map_cons, List.sum_cons, hmapeq,
      ih (rs.filter (fun r => !(decide (r.category = k)))) hndks hcov']
    exact sum_map_filter_split (fun r => decide (r.category = k)) rs

/-- `sum(actual_sums.values())` is the plain total of the month's amounts. -/
lemma totalActual_eq (rows : List ExpenseRow) (t : Nat × Nat) :
    totalActual rows t = ((monthRows rows t).map (fun r => r.amount)).sum := by
  unfold totalActual actualSums
  rw [List.map_map]
  have hcomp : ((fun p : List Char × Int => p.2)
      ∘ (fun c => (c, catSum (monthRows rows t) c)))
      = fun c => catSum (monthRows rows t) c := rfl
  rw [hcomp]
  apply sum_catSum_eq
  · exact List.nodup_dedup _
  · intro r hr
    unfold actualCats
    exact List.mem_dedup.mpr (List.mem_map.mpr ⟨r, hr, rfl⟩)

/-- Looking up a key in a keyed map of a function is the function value. -/
lemma lookupD_map_self (f : List Char → Int) (ks : List (List Char)) (c : List Char) :
    lookupD (ks.map (fun k => (k, f k))) c = if c ∈ ks then f c else 0 := by
  induction ks with
  | nil => simp [lookupD]
  | cons k ks ih =>
    by_cases hkc : k = c
    · subst hkc
      unfold lookupD
      rw [List.map_cons, List.find?_cons_of_pos _ (by simp)]
      simp
    · unfold lookupD
      rw [List.map_cons, List.find?_cons_of_neg _ (by simp [hkc])]
      unfold lookupD at ih
      rw [ih]
      by_cases hcm : c ∈ ks
      · rw [if_pos hcm, if_pos (List.mem_cons_of_mem k hcm)]
      · rw [if_neg hcm, if_neg (fun h => by
          rcases List.mem_cons.mp h with h1 | h2
          · exact hkc h1.symm
          · exact hcm h2)]

/-- A category with no matching records has group sum zero. -/
lemma catSum_zero_of_not_mem (rs : List ExpenseRow) (c : List Char)
    (h : c ∉ actualCats rs) : catSum rs c = 0 := by
  unfold catSum
  have hnil : rs.filter (fun r => decide (r.category = c)) = [] := by
    rw [List.filter_eq_nil_iff]
    intro r hr
    simp only [decide_eq_true_eq]
    intro hcat
    exact h (by
      unfold actualCats
      exact List.mem_dedup.mpr (List.mem_map.mpr ⟨r, hr, hcat⟩))
  rw [hnil]
  rfl

/-- `actual_sums.get(cat, 0)` coincides with the direct per-category sum. -/
lemma lookupD_actualSums (rs : List ExpenseRow) (c : List Char) :
    lookupD (actualSums rs) c = catSum rs c := by
  unfold actualSums
  rw [lookupD_map_self]
  by_cases h : c ∈ actualCats rs
  · rw [if_pos h]
  · rw [if_neg h, catSum_zero_of_not_mem rs c h]

/-! Claim C6: which categories appear in the Details report. -/

/-- A budget table with a nonzero budget for 食費. -/
def bdC6 : List (List Char × Int) := [("食費".data, 1000)]

/-- C6 counterexample: with an empty record set the month filter is empty, so
the code builds no Details report at all, even though 食費 has a nonzero
budget — contradicting the claim that a row exists whenever budget ≠ 0 or
actual ≠ 0. -/
theorem details_empty_month_counter :
    detailRows bdC6 [] (2024, 3) = [] ∧
    lookupD bdC6 "食費".data = 1000 ∧
    "食費".data ∈ CATEGORIES :=
  ⟨rfl, rfl, by decide⟩

/-- C6 (amended): when the selected month has at least one record, the
Details report has a row for a taxonomy category exactly when its budget or
its actual sum is nonzero; when the month has no records, no Details report
is produced at all; and the budget-configuration view always lists the full
taxonomy. -/
theorem details_rows_iff (bd : List (List Char × Int)) (rows : List ExpenseRow)
    (t : Nat × Nat) (c : List Char) (hc : c ∈ CATEGORIES)
    (hne : monthRows rows t ≠ []) :
    ((∃ row ∈ detailRows bd rows t, row.category = c) ↔
      (lookupD bd c ≠ 0 ∨ catSum (monthRows rows t) c ≠ 0)) ∧
    (budgetConfigRows bd rows t).map (fun p => p.1) = CATEGORIES := by
  constructor
  · unfold detailRows
    rw [if_neg hne]
    constructor
    · rintro ⟨row, hrow, hcat⟩
      obtain ⟨c', hc', hg⟩ := List.mem_filterMap.mp hrow
      by_cases hz : lookupD bd c' = 0 ∧ lookupD (actualSums (monthRows rows t)) c' = 0
      · rw [if_pos hz] at hg
        cases hg
      · rw [if_neg hz] at hg
        cases hg
        rw [← hcat]
        rw [lookupD_actualSums] at hz
        tauto
    · intro h
      have hz : ¬(lookupD bd c = 0 ∧ lookupD (actualSums (monthRows rows t)) c = 0) := by
        rw [lookupD_actualSums]
        tauto
      exact ⟨⟨c, lookupD bd c, lookupD (actualSums (monthRows rows t)) c,
          lookupD bd c - lookupD (actualSums (monthRows rows t)) c⟩,
        List.mem_filterMap.mpr ⟨c, hc, by rw [if_neg hz]⟩, rfl⟩
  · unfold budgetConfigRows
    rw [List.map_map]
    exact List.map_id CATEGORIES

/-- Budget table for the C6 witness. -/
def bdW6 : List (List Char × Int) := [("食費".data, 100)]

/-- Records for the C6 witness: one record in 2024-03. -/
def rowsW6 : List ExpenseRow := [⟨1, ⟨2024, 3, 5⟩, "外食費".data, "x".data, 50⟩]

/-- Witness for C6's amended theorem at a concrete month with records. -/
theorem details_rows_iff_witness :
    (budgetConfigRows bdW6 rowsW6 (2024, 3)).map (fun p => p.1) = CATEGORIES :=
  (details_rows_iff bdW6 rowsW6 (2024, 3) "食費".data (by decide) (by decide)).2

/-! Claim C7: the report totals. -/

/-- C7: the totals of the report: `total_budget` sums the month's budget
values, `total_actual` sums the per-category group sums — which equals the
plain total of the month's amounts — and `remaining` is exactly their
difference over ℤ, so overspend is a genuine negative value, never
clamped. -/
theorem aggregator_totals (bd : List (List Char × Int)) (rows : List ExpenseRow)
    (t : Nat × Nat) :
    totalDiff bd rows t = totalBudget bd - totalActual rows t ∧
    totalBudget bd = (bd.map (fun p => p.2)).sum ∧
    totalActual rows t = ((monthRows rows t).map (fun r => r.amount)).sum ∧
    (totalBudget bd < totalActual rows t → totalDiff bd rows t < 0) := by
  refine ⟨rfl, rfl, totalActual_eq rows t, ?_⟩
  intro h
  unfold totalDiff
  omega

/-- Budget table for the C7 witness (overspent month). -/
def bdW7 : List (List Char × Int) := [("食費".data, 100)]

/-- Records for the C7 witness: spending above budget. -/
def rowsW7 : List ExpenseRow := [⟨1, ⟨2024, 3, 5⟩, "食費".data, "x".data, 500⟩]

/-- Witness for C7: the remaining budget of the overspent month is negative
(not clamped). -/
theorem aggregator_totals_witness : totalDiff bdW7 rowsW7 (2024, 3) < 0 :=
  (aggregator_totals bdW7 rowsW7 (2024, 3)).2.2.2 (by decide)

/-! Claim C8: the consumption-ratio guard. -/

/-- C8: the consumption bar value is produced exactly under the guard
`total_budget > 0` and then equals `min(total_actual / total_budget, 1)`;
when `total_budget = 0` nothing is computed, so the division never runs with
a zero divisor. -/
theorem percent_guard (bd : List (List Char × Int)) (rows : List ExpenseRow)
    (t : Nat × Nat) :
    (totalBudget bd = 0 → percentVal bd rows t = none) ∧
    (∀ q, percentVal bd rows t = some q →
      0 < totalBudget bd ∧ q = min ((totalActual rows t : ℚ) / (totalBudget bd : ℚ)) 1) := by
  constructor
  · intro h
    unfold percentVal
    rw [if_neg (by omega)]
  · intro q hq
    unfold percentVal at hq
    by_cases h : 0 < totalBudget bd
    · rw [if_pos h] at hq
      cases hq
      exact ⟨h, rfl⟩
    · rw [if_neg h] at hq
      cases hq

/-- Witness for C8: with an empty budget table the bar is not computed. -/
theorem percent_guard_witness : percentVal [] [] (2024, 3) = none :=
  (percent_guard [] [] (2024, 3)).1 rfl

/-! Claim C9: upsert semantics of the budget store. -/

/-- Filtering twice can only shrink the selection. -/
lemma length_filter_filter_le (p q : BudgetEntry → Bool) (l : List BudgetEntry) :
    ((l.filter q).filter p).length ≤ (l.filter p).length := by
  induction l with
  | nil => simp
  | cons a l ih =>
    by_cases hq : q a
    · by_cases hp : p a
      · rw [List.filter_cons_of_pos hq, List.filter_cons_of_pos hp,
          List.filter_cons_of_pos hp]
        simpa using ih
      · rw [List.filter_cons_of_pos hq, List.filter_cons_of_neg hp,
          List.filter_cons_of_neg hp]
        exact ih
    · by_cases hp : p a
      · rw [List.filter_cons_of_neg hq, List.filter_cons_of_pos hp]
        exact Nat.le_succ_of_le ih
      · rw [List.filter_cons_of_neg hq, List.filter_cons_of_neg hp]
        exact ih

/-- C9: `set_category_budget` preserves the at-most-one-row-per-key
invariant, and two upserts of the same (month, category) with different
amounts leave exactly one row for that key, holding the later amount. -/
theorem budget_upsert_inv (db : List BudgetEntry) (m c : List Char) (a1 a2 : Int)
    (hinv : budgetInv db) :
    budgetInv (set_category_budget db m c a1) ∧
    (set_category_budget (set_category_budget db m c a1) m c a2).filter
        (budgetKeyMatch m c) = [⟨m, c, a2⟩] := by
  have hfilter_self : ∀ (l : List BudgetEntry) (x : Int),
      (set_category_budget l m c x).filter (budgetKeyMatch m c) = [⟨m, c, x⟩] := by
    intro l x
    unfold set_category_budget
    rw [List.filter_append, List.filter_filter]
    have h1 : l.filter (fun e => budgetKeyMatch m c e && !(budgetKeyMatch m c e)) = [] := by
      simp
    rw [h1]
    simp [budgetKeyMatch, List.filter]
  refine ⟨?_, hfilter_self (set_category_budget db m c a1) a2⟩
  intro m' c'
  unfold set_category_budget
  rw [List.filter_append, List.filter_filter, List.length_append]
  by_cases hkey : m = m' ∧ c = c'
  · obtain ⟨rfl, rfl⟩ := hkey
    have h1 : db.filter (fun e => budgetKeyMatch m c e && !(budgetKeyMatch m c e)) = [] := by
      simp
    rw [h1]
    simp [budgetKeyMatch, List.filter]
  · have h2 : List.filter (budgetKeyMatch m' c') [⟨m, c, a1⟩] = [] := by
      simp [List.filter, budgetKeyMatch, hkey]
    rw [h2]
    have h3 : ((db.filter (fun e => !(budgetKeyMatch m c e))).filter
        (budgetKeyMatch m' c')).length ≤ (db.filter (budgetKeyMatch m' c')).length :=
      length_filter_filter_le (budgetKeyMatch m' c') (fun e => !(budgetKeyMatch m c e)) db
    rw [← List.filter_filter] at *
    have h4 := hinv m' c'
    simp only [List.length_nil]
    omega

/-- Witness for C9: two upserts on an initially empty budget store. -/
theorem budget_upsert_inv_witness :
    budgetInv (set_category_budget [] "2024年03月".data "食費".data 2000) ∧
    (set_category_budget (set_category_budget [] "2024年03月".data "食費".data 2000)
        "2024年03月".data "食費".data 3000).filter
        (budgetKeyMatch "2024年03月".data "食費".data)
      = [⟨"2024年03月".data, "食費".data, 3000⟩] :=
  budget_upsert_inv [] "2024年03月".data "食費".data 2000 3000 (fun m c => by simp)

/-! Claim C10: deleting expense records by id. -/

/-- C10: deleting an id removes exactly the records with that id and keeps
every other record; deleting an id that is not present leaves the store
unchanged; and deleting the same id twice equals deleting it once. -/
theorem delete_expense_spec (db : List ExpenseRow) (eid : Nat) :
    (∀ r, r ∈ delete_expense db eid ↔ (r ∈ db ∧ r.id ≠ eid)) ∧
    ((∀ r ∈ db, r.id ≠ eid) → delete_expense db eid = db) ∧
    delete_expense (delete_expense db eid) eid = delete_expense db eid := by
  refine ⟨?_, ?_, ?_⟩
  · intro r
    simp [delete_expense, List.mem_filter]
  · intro h
    unfold delete_expense
    rw [List.filter_eq_self]
    intro r hr
    simpa using h r hr
  · simp [delete_expense, List.filter_filter]

/-- A concrete stored expense record. -/
def rowW0 : ExpenseRow := ⟨1, ⟨2024, 3, 5⟩, "食費".data, "x".data, 500⟩

/-- Witness for C10: deleting an absent id from a one-row store is a
no-op. -/
theorem delete_expense_spec_witness : delete_expense [rowW0] 5 = [rowW0] :=
  (delete_expense_spec [rowW0] 5).2.1 (by decide)
